import Mathlib

/-!
# Verification of the lunik toolchain multiplexer core

This development embeds the core of the `lunik` repository — the channel
descriptor parser (`src/channel.rs`), the configuration store
(`src/config.rs`), the toolchain resolver (`src/mux.rs`) and the
channel install/remove operations (`src/self_ops/channel.rs`) — as
executable Lean definitions, and proves or refutes the specification's
claims about them.

Strings are modelled as `List Char` (named `Str`) so that the character
level splitting done by the Rust code (`splitn`, `split`) can be
reasoned about by structural induction.  Filesystem paths are modelled
as lists of path components (`List Str`), matching the component-wise
behaviour of `PathBuf::join` and of directory removal.
-/

namespace Lunik

/-- Strings, modelled at the character level. -/
abbrev Str := List Char

/-- A filesystem path, as a list of components. -/
abbrev Path := List Str

/-- Rust's `s.splitn(2, c)`: split at the first occurrence of `c`,
returning the part before it and, when `c` occurs, the remainder.
`([], none)` on the empty string (Rust yields the single item `""`). -/
def splitn2 (c : Char) : Str → Str × Option Str
  | [] => ([], none)
  | x :: xs =>
    if x = c then ([], some xs)
    else
      let p := splitn2 c xs
      (x :: p.1, p.2)

/-- Rust's `s.split(c)`: the list of `c`-separated fragments.  On the
empty string this is `[[]]`, matching Rust's single empty item. -/
def splitOnChar (c : Char) : Str → List Str
  | [] => [[]]
  | x :: xs =>
    let r := splitOnChar c xs
    if x = c then [] :: r
    else
      match r with
      | [] => [[x]]
      | h :: t => (x :: h) :: t

theorem splitOnChar_ne_nil (c : Char) (s : Str) : splitOnChar c s ≠ [] := by
  cases s with
  | nil => simp [splitOnChar]
  | cons x xs =>
    simp only [splitOnChar]
    split
    · simp
    · split <;> simp

/-- `src/channel.rs` — `enum ChannelKind`. -/
inductive ChannelKind where
  | latest
  | bleeding
  | version (v : Str)
  deriving DecidableEq, Repr

/-- `src/channel.rs` — `struct Host { os, arch }`. -/
structure Host where
  os : Str
  arch : Str
  deriving DecidableEq, Repr

/-- `src/channel.rs` — `struct Channel { channel, host }`. -/
structure Channel where
  channel : ChannelKind
  host : Host
  deriving DecidableEq, Repr

/-- `ChannelKind::from_str`: `"latest"` and `"bleeding"` are keywords,
everything else (the empty string included) is accepted as a literal
version.  The Rust function returns `Result` but never errs. -/
def ChannelKind.fromStr (s : Str) : ChannelKind :=
  if s = "latest".toList then .latest
  else if s = "bleeding".toList then .bleeding
  else .version s

/-- `ChannelKind` `Display` impl. -/
def ChannelKind.toStr : ChannelKind → Str
  | .latest => "latest".toList
  | .bleeding => "bleeding".toList
  | .version v => v

/-- `Host::from_str`: split on `-`; the first fragment is the os (always
present, since `split` yields at least one fragment), the second the
arch (`"missing arch"` error when absent); further fragments are ignored. -/
def Host.fromStr (s : Str) : Except Str Host :=
  match splitOnChar '-' s with
  | [] => .error "missing os".toList
  | [_] => .error "missing arch".toList
  | os :: arch :: _ => .ok ⟨os, arch⟩

/-- `Host` `Display` impl: `"<os>-<arch>"`. -/
def Host.toStr (h : Host) : Str := h.os ++ '-' :: h.arch

/-- `Channel::from_str`: `splitn(2, '-')` separates the release selector
from the optional host; when the host part is absent the platform
default host is used. -/
def Channel.fromStr (defaultHost : Host) (s : Str) : Except Str Channel :=
  let p := splitn2 '-' s
  let kind := ChannelKind.fromStr p.1
  match p.2 with
  | none => .ok ⟨kind, defaultHost⟩
  | some rest =>
    match Host.fromStr rest with
    | .ok h => .ok ⟨kind, h⟩
    | .error e => .error e

/-- `Channel` `Display` impl: `"<release>-<os>-<arch>"`. -/
def Channel.toStr (c : Channel) : Str := c.channel.toStr ++ '-' :: c.host.toStr

theorem splitn2_append (r rest : Str) (h : '-' ∉ r) :
    splitn2 '-' (r ++ '-' :: rest) = (r, some rest) := by
  induction r with
  | nil => simp [splitn2]
  | cons x xs ih =>
    simp only [List.mem_cons, not_or] at h
    simp [splitn2, Ne.symm h.1, ih h.2]

theorem splitOnChar_append (c : Char) (o rest : Str) (h : c ∉ o) :
    splitOnChar c (o ++ c :: rest) = o :: splitOnChar c rest := by
  induction o with
  | nil => simp [splitOnChar]
  | cons x xs ih =>
    simp only [List.mem_cons, not_or] at h
    have h2 := ih h.2
    simp only [List.cons_append, splitOnChar, List.append_eq, h2,
      if_neg (Ne.symm h.1)]

theorem splitOnChar_no_sep (c : Char) (a : Str) (h : c ∉ a) :
    splitOnChar c a = [a] := by
  induction a with
  | nil => simp [splitOnChar]
  | cons x xs ih =>
    simp only [List.mem_cons, not_or] at h
    simp only [splitOnChar, ih h.2, if_neg (Ne.symm h.1)]

theorem ChannelKind.toStr_fromStr (r : Str) :
    (ChannelKind.fromStr r).toStr = r := by
  unfold ChannelKind.fromStr
  split
  · rename_i h; simp [ChannelKind.toStr, h]
  · split
    · rename_i h; simp [ChannelKind.toStr, h]
    · simp [ChannelKind.toStr]

/-- The host triple of a typical Linux platform, used as the concrete
default host in witnesses. -/
def hostLinux : Host := ⟨"linux".toList, "x86_64".toList⟩

/-- Claim C5: channel string round-trip.  For every channel string with
an explicit host — a release, an os and an arch component, none
containing `-` — parsing succeeds, re-rendering the parsed value gives
back the exact input, and re-parsing that rendering gives back the same
value. -/
theorem channel_roundtrip (defaultHost : Host) (r o a : Str)
    (hr : '-' ∉ r) (ho : '-' ∉ o) (ha : '-' ∉ a) :
    ∃ c : Channel,
      Channel.fromStr defaultHost (r ++ '-' :: (o ++ '-' :: a)) = .ok c ∧
      c.toStr = r ++ '-' :: (o ++ '-' :: a) ∧
      Channel.fromStr defaultHost c.toStr = .ok c := by
  have hsplit := splitn2_append r (o ++ '-' :: a) hr
  have hhost : Host.fromStr (o ++ '-' :: a) = .ok ⟨o, a⟩ := by
    unfold Host.fromStr
    rw [splitOnChar_append '-' o a ho, splitOnChar_no_sep '-' a ha]
  have hparse : Channel.fromStr defaultHost (r ++ '-' :: (o ++ '-' :: a))
      = .ok ⟨ChannelKind.fromStr r, o, a⟩ := by
    unfold Channel.fromStr
    rw [hsplit]
    simp [hhost]
  have hto : Channel.toStr ⟨ChannelKind.fromStr r, o, a⟩
      = r ++ '-' :: (o ++ '-' :: a) := by
    simp [Channel.toStr, Host.toStr, ChannelKind.toStr_fromStr]
  exact ⟨⟨ChannelKind.fromStr r, o, a⟩, hparse, hto, hto ▸ hparse⟩

/-- Witness for claim C5 at the channel string `"latest-linux-x86_64"`. -/
theorem channel_roundtrip_witness :
    ∃ c : Channel,
      Channel.fromStr hostLinux
          ("latest".toList ++ '-' :: ("linux".toList ++ '-' :: "x86_64".toList))
        = .ok c ∧
      c.toStr
        = "latest".toList ++ '-' :: ("linux".toList ++ '-' :: "x86_64".toList) ∧
      Channel.fromStr hostLinux c.toStr = .ok c :=
  channel_roundtrip hostLinux "latest".toList "linux".toList "x86_64".toList
    (by decide) (by decide) (by decide)

/-- Claim C6 (code bug): the malformed inputs `"latest-"` and
`"latest-linux"` are rejected as the claim states, but `""` is accepted —
`ChannelKind::from_str` never fails, so the empty release text becomes
`Version("")` with the default host, contradicting the repository's own
`test_malformed` test which asserts `"".parse::<Channel>().is_err()`. -/
theorem channel_malformed_inputs (defaultHost : Host) :
    Channel.fromStr defaultHost "".toList = .ok ⟨.version [], defaultHost⟩ ∧
    Channel.fromStr defaultHost "latest-".toList = .error "missing arch".toList ∧
    Channel.fromStr defaultHost "latest-linux".toList
      = .error "missing arch".toList :=
  ⟨rfl, rfl, rfl⟩

/-- Claim C7 counterexample: the input `"latest-linux-x86_64-extra"` has a
host segment of three `-`-delimited components, yet parsing succeeds (the
third component is silently dropped), refuting the claim that any number
of components other than two makes parsing fail. -/
theorem host_extra_components_accepted :
    (splitOnChar '-' "linux-x86_64-extra".toList).length = 3 ∧
    Channel.fromStr hostLinux "latest-linux-x86_64-extra".toList
      = .ok ⟨.latest, ⟨"linux".toList, "x86_64".toList⟩⟩ :=
  ⟨by decide, rfl⟩

/-- Claim C7 as amended: when a host segment is present after the first
`-`, parsing succeeds exactly when the remainder splits into at least two
`-`-delimited components; the first two become os and arch and any
further components are ignored, while fewer than two is a parse error. -/
theorem host_segment_parsing (defaultHost : Host) (r rest : Str)
    (hr : '-' ∉ r) :
    Channel.fromStr defaultHost (r ++ '-' :: rest)
      = match splitOnChar '-' rest with
        | os :: arch :: _ => .ok ⟨ChannelKind.fromStr r, os, arch⟩
        | _ => .error "missing arch".toList := by
  have hsplit := splitn2_append r rest hr
  unfold Channel.fromStr
  rw [hsplit]
  unfold Host.fromStr
  rcases h : splitOnChar '-' rest with _ | ⟨os, _ | ⟨arch, t⟩⟩
  · exact absurd h (splitOnChar_ne_nil '-' rest)
  · simp [h]
  · simp [h]

/-- Witness for the amended claim C7 at the inputs
`"latest-linux-x86_64-extra"` (accepted) and `"latest-linux"` (rejected). -/
theorem host_segment_parsing_witness :
    (Channel.fromStr hostLinux
        ("latest".toList ++ '-' :: "linux-x86_64-extra".toList)
      = .ok ⟨.latest, ⟨"linux".toList, "x86_64".toList⟩⟩) ∧
    (Channel.fromStr hostLinux ("latest".toList ++ '-' :: "linux".toList)
      = .error "missing arch".toList) := by
  constructor
  · rw [host_segment_parsing hostLinux "latest".toList
      "linux-x86_64-extra".toList (by decide)]
    rfl
  · rfl

/-- `src/config.rs` — `struct ToolchainInfo`.  `HashMap`s are modelled as
association lists; lookup takes the first binding. -/
structure ToolchainInfo where
  fallback : Option Str
  root_path : Option Path
  override_ : List (Str × Path)
  core_path : Option Path
  deriving DecidableEq, Repr

/-- `src/config.rs` — `struct ChannelInfo`. -/
structure ChannelInfo where
  url : Option Str
  deriving DecidableEq, Repr

/-- `src/config.rs` — `struct Config`. -/
structure Config where
  toolchain : List (Str × ToolchainInfo)
  channels : List (Str × ChannelInfo)
  default : Str
  deriving DecidableEq, Repr

/-- `src/config.rs` — `toolchain_path`:
`home_dir()/lunik/toolchain/<toolchain_name>`
(`lunik_dir().join(TOOLCHAIN_DEFAULT_ROOT).join(toolchain_name)`).
The process home directory is passed explicitly. -/
def toolchain_path (home : Path) (toolchain_name : Str) : Path :=
  home ++ ["lunik".toList, "toolchain".toList, toolchain_name]

/-- Rust's `trim_end_matches(".exe")` worker: strip the suffix as long as
it is present, with explicit fuel bounded by the string length. -/
def stripDotExe : Nat → Str → Str
  | 0, s => s
  | n + 1, s =>
    if ".exe".toList.isSuffixOf s then
      stripDotExe n (s.take (s.length - 4))
    else s

/-- `executable_name.trim_end_matches(".exe")` from `try_get_executable`. -/
def trimEndExe (s : Str) : Str := stripDotExe s.length s

/-- Errors produced by the resolver in `src/mux.rs`. -/
inductive ResolveErr where
  | toolchainNotFound (name : Str)
  | executableNotFound (path : Path)
  deriving DecidableEq, Repr

/-- `src/mux.rs` — `get_toolchain_executable`: an `override` entry is used
verbatim; otherwise the path is `root_path (or the default toolchain
path) / bin / <executable>(.exe on Windows)`. -/
def get_toolchain_executable (windows : Bool) (home : Path)
    (toolchain_name : Str) (toolchain : ToolchainInfo)
    (executable_name : Str) : Path :=
  match toolchain.override_.lookup executable_name with
  | some p => p
  | none =>
    let toolchain_root :=
      toolchain.root_path.getD (toolchain_path home toolchain_name)
        ++ ["bin".toList]
    let exe_file :=
      if windows then executable_name ++ ".exe".toList else executable_name
    toolchain_root ++ [exe_file]

/-- The toolchain lookup performed at the head of the loop in
`src/mux.rs` `try_get_executable`: a direct hit in `config.toolchain`
wins; otherwise the name is parsed as a channel and its canonical string
is looked up; both errors report the name that failed. -/
def lookup_toolchain (defaultHost : Host) (cfg : Config)
    (toolchain_name : Str) : Except ResolveErr (Str × ToolchainInfo) :=
  match cfg.toolchain.lookup toolchain_name with
  | some info => .ok (toolchain_name, info)
  | none =>
    match Channel.fromStr defaultHost toolchain_name with
    | .ok ch =>
      let real_name := ch.toStr
      match cfg.toolchain.lookup real_name with
      | some info => .ok (real_name, info)
      | none => .error (.toolchainNotFound toolchain_name)
    | .error _ => .error (.toolchainNotFound toolchain_name)

/-- The `loop` of `src/mux.rs` `try_get_executable`, made fuel-indexed:
`none` means the loop is still running after `fuel` iterations (the Rust
loop has no bound of its own).  The filesystem is modelled by the list
`fs` of existing paths. -/
def try_get_executable_loop (windows : Bool) (defaultHost : Host)
    (home : Path) (fs : List Path) (cfg : Config) (executable_name : Str) :
    Nat → Str → Option (Except ResolveErr Path)
  | 0, _ => none
  | fuel + 1, toolchain_name =>
    match lookup_toolchain defaultHost cfg toolchain_name with
    | .error e => some (.error e)
    | .ok (real_toolchain_name, toolchain_info) =>
      let executable_path := get_toolchain_executable windows home
        real_toolchain_name toolchain_info executable_name
      if executable_path ∈ fs then some (.ok executable_path)
      else
        match toolchain_info.fallback with
        | some fallback =>
          try_get_executable_loop windows defaultHost home fs cfg
            executable_name fuel fallback
        | none => some (.error (.executableNotFound executable_path))

/-- `src/mux.rs` — `try_get_executable`: pick the starting toolchain name
(explicit, or the configuration default), strip `.exe` on Windows, then
run the fallback-chain loop. -/
def try_get_executable (windows : Bool) (defaultHost : Host) (home : Path)
    (fs : List Path) (cfg : Config) (toolchain : Option Str)
    (executable_name : Str) (fuel : Nat) :
    Option (Except ResolveErr Path) :=
  let toolchain_name := toolchain.getD cfg.default
  let executable_name :=
    if windows then trimEndExe executable_name else executable_name
  try_get_executable_loop windows defaultHost home fs cfg executable_name
    fuel toolchain_name

/-- Resolver loop results are stable: once the loop has produced an
answer within some fuel, more fuel yields the same answer. -/
theorem try_get_executable_loop_mono (windows : Bool) (defaultHost : Host)
    (home : Path) (fs : List Path) (cfg : Config) (exe : Str) (n : Nat)
    (name : Str) (r : Except ResolveErr Path)
    (h : try_get_executable_loop windows defaultHost home fs cfg exe n name
      = some r) :
    try_get_executable_loop windows defaultHost home fs cfg exe (n + 1) name
      = some r := by
  induction n generalizing name with
  | zero => exact absurd h (by simp [try_get_executable_loop])
  | succ m ih =>
    rw [try_get_executable_loop] at h ⊢
    rcases hl : lookup_toolchain defaultHost cfg name with e | ⟨rn, info⟩
    · rw [hl] at h
      exact h
    · rw [hl] at h
      simp only at h ⊢
      by_cases hmem : get_toolchain_executable windows home rn info exe ∈ fs
      · rw [if_pos hmem] at h ⊢
        exact h
      · rw [if_neg hmem] at h ⊢
        rcases hf : info.fallback with _ | fb <;> simp only [hf] at h ⊢
        · exact h
        · exact ih fb h

/-- A configuration whose single toolchain entry `A` names itself as its
own fallback — the cyclic configuration of claim C2. -/
def cfgCyclic : Config :=
  { toolchain := [("A".toList,
      { fallback := some "A".toList, root_path := none,
        override_ := [], core_path := none })],
    channels := [],
    default := "A".toList }

theorem cyclic_loop_runs_forever (fuel : Nat) :
    try_get_executable_loop false hostLinux [] [] cfgCyclic "moon".toList
      fuel "A".toList = none := by
  induction fuel with
  | zero => rfl
  | succ n ih => exact ih

/-- Claim C2 (code bug): on a configuration whose fallback pointers form
a cycle (toolchain `A` with `fallback = A`) and with the requested
executable existing in no toolchain, the resolver does not terminate:
for every iteration bound the loop is still running, and in particular
it never produces any error — there is no "fallback cycle detected"
check in `try_get_executable`. -/
theorem resolver_cycle_diverges (fuel : Nat) :
    try_get_executable false hostLinux [] [] cfgCyclic (some "A".toList)
      "moon".toList fuel = none :=
  cyclic_loop_runs_forever fuel

/-- Claim C3: with toolchain `A` falling back to `B`, `B` having no
fallback, and the requested executable's candidate path existing under
`B` but not under `A`, resolution starting from `A` returns `B`'s
executable path (given at least two loop iterations of fuel). -/
theorem fallback_chain_resolves (windows : Bool) (defaultHost : Host)
    (home : Path) (fs : List Path) (cfg : Config) (A B exe : Str)
    (infoA infoB : ToolchainInfo) (fuel : Nat)
    (hA : cfg.toolchain.lookup A = some infoA)
    (hAfb : infoA.fallback = some B)
    (hB : cfg.toolchain.lookup B = some infoB)
    (hnotA : get_toolchain_executable windows home A infoA
        (if windows then trimEndExe exe else exe) ∉ fs)
    (hinB : get_toolchain_executable windows home B infoB
        (if windows then trimEndExe exe else exe) ∈ fs)
    (hfuel : 2 ≤ fuel) :
    try_get_executable windows defaultHost home fs cfg (some A) exe fuel
      = some (.ok (get_toolchain_executable windows home B infoB
          (if windows then trimEndExe exe else exe))) := by
  obtain ⟨n, rfl⟩ : ∃ n, fuel = n + 2 := ⟨fuel - 2, by omega⟩
  unfold try_get_executable
  simp only [Option.getD_some]
  have hlA : lookup_toolchain defaultHost cfg A = .ok (A, infoA) := by
    unfold lookup_toolchain
    rw [hA]
  have hlB : lookup_toolchain defaultHost cfg B = .ok (B, infoB) := by
    unfold lookup_toolchain
    rw [hB]
  rw [try_get_executable_loop]
  simp only [hlA, if_neg hnotA, hAfb]
  rw [try_get_executable_loop]
  simp only [hlB, if_pos hinB]

/-- The two-link configuration of claims C3 and C4's witnesses:
`A` falls back to `B`; in `cfgAB` both names are configured, in
`cfgDangling` only `A` is. -/
def infoFallbackB : ToolchainInfo :=
  { fallback := some "B".toList, root_path := none,
    override_ := [], core_path := none }

def infoNoFallback : ToolchainInfo :=
  { fallback := none, root_path := none, override_ := [], core_path := none }

def cfgAB : Config :=
  { toolchain := [("A".toList, infoFallbackB), ("B".toList, infoNoFallback)],
    channels := [],
    default := "A".toList }

def cfgDangling : Config :=
  { toolchain := [("A".toList, infoFallbackB)],
    channels := [],
    default := "A".toList }

/-- Witness for claim C3: resolving `moon` from `A` in `cfgAB`, with the
candidate path present only under `B`, yields `B`'s path. -/
theorem fallback_chain_resolves_witness :
    try_get_executable false hostLinux [] 
        [get_toolchain_executable false [] "B".toList infoNoFallback
          "moon".toList]
        cfgAB (some "A".toList) "moon".toList 2
      = some (.ok (get_toolchain_executable false [] "B".toList
          infoNoFallback "moon".toList)) :=
  fallback_chain_resolves false hostLinux [] _ cfgAB "A".toList "B".toList
    "moon".toList infoFallbackB infoNoFallback 2 (by rfl) (by rfl) (by rfl)
    (by decide) (by decide) (by decide)

/-- Claim C4 counterexample, refuting both failure modes of the claim.
In `cfgDangling` toolchain `A` exists with fallback `B` and `B` is not a
known toolchain: resolution requested for `A` fails with an error naming
`B` — the fallback at which the chain failed — not the originally
requested `A`.  In `cfgAB` both toolchains exist but the executable is
nowhere on disk: after exhausting the chain the error carries the
candidate path probed under `B`, whose components mention `B` and never
`A`. -/
theorem resolver_error_names_fallback :
    (try_get_executable false hostLinux [] [] cfgDangling (some "A".toList)
        "moon".toList 3
      = some (.error (.toolchainNotFound "B".toList)) ∧
     "B".toList ≠ "A".toList) ∧
    (try_get_executable false hostLinux [] [] cfgAB (some "A".toList)
        "moon".toList 3
      = some (.error (.executableNotFound
          (get_toolchain_executable false [] "B".toList infoNoFallback
            "moon".toList))) ∧
     "A".toList ∉ get_toolchain_executable false [] "B".toList
        infoNoFallback "moon".toList ∧
     "B".toList ∈ get_toolchain_executable false [] "B".toList
        infoNoFallback "moon".toList) :=
  ⟨⟨rfl, by decide⟩, rfl, by decide, by decide⟩

/-- Claim C4 as amended: for a chain started at `A` with fallback `B`
and the executable absent at `A`, if `B` cannot be resolved the error
names `B` — the first unresolvable name, not the originally requested
`A` — and if `B` resolves with no fallback but the executable is also
absent there, the error carries the candidate path probed under `B`,
the last toolchain of the chain. -/
theorem resolver_error_names_failing_link (windows : Bool)
    (defaultHost : Host) (home : Path) (fs : List Path) (cfg : Config)
    (A B exe : Str) (infoA : ToolchainInfo) (fuel : Nat)
    (hA : cfg.toolchain.lookup A = some infoA)
    (hAfb : infoA.fallback = some B)
    (hnotA : get_toolchain_executable windows home A infoA
        (if windows then trimEndExe exe else exe) ∉ fs)
    (hfuel : 2 ≤ fuel) :
    (lookup_toolchain defaultHost cfg B = .error (.toolchainNotFound B) →
      try_get_executable windows defaultHost home fs cfg (some A) exe fuel
        = some (.error (.toolchainNotFound B))) ∧
    (∀ infoB : ToolchainInfo,
      cfg.toolchain.lookup B = some infoB →
      infoB.fallback = none →
      get_toolchain_executable windows home B infoB
          (if windows then trimEndExe exe else exe) ∉ fs →
      try_get_executable windows defaultHost home fs cfg (some A) exe fuel
        = some (.error (.executableNotFound
            (get_toolchain_executable windows home B infoB
              (if windows then trimEndExe exe else exe))))) := by
  obtain ⟨n, rfl⟩ : ∃ n, fuel = n + 2 := ⟨fuel - 2, by omega⟩
  have hlA : lookup_toolchain defaultHost cfg A = .ok (A, infoA) := by
    unfold lookup_toolchain
    rw [hA]
  constructor
  · intro hBerr
    unfold try_get_executable
    simp only [Option.getD_some]
    rw [try_get_executable_loop]
    simp only [hlA, if_neg hnotA, hAfb]
    rw [try_get_executable_loop]
    simp only [hBerr]
  · intro infoB hB hBfb hnotB
    have hlB : lookup_toolchain defaultHost cfg B = .ok (B, infoB) := by
      unfold lookup_toolchain
      rw [hB]
    unfold try_get_executable
    simp only [Option.getD_some]
    rw [try_get_executable_loop]
    simp only [hlA, if_neg hnotA, hAfb]
    rw [try_get_executable_loop]
    simp only [hlB, if_neg hnotB, hBfb]

/-- Witness for the amended claim C4: the unresolvable-fallback case on
`cfgDangling` and the exhausted-chain case on `cfgAB`. -/
theorem resolver_error_names_failing_link_witness :
    try_get_executable false hostLinux [] [] cfgDangling (some "A".toList)
        "moon".toList 2
      = some (.error (.toolchainNotFound "B".toList)) ∧
    try_get_executable false hostLinux [] [] cfgAB (some "A".toList)
        "moon".toList 2
      = some (.error (.executableNotFound
          (get_toolchain_executable false [] "B".toList infoNoFallback
            "moon".toList))) :=
  ⟨(resolver_error_names_failing_link false hostLinux [] [] cfgDangling
      "A".toList "B".toList "moon".toList infoFallbackB 2 rfl rfl
      (by decide) (by decide)).1 rfl,
   (resolver_error_names_failing_link false hostLinux [] [] cfgAB
      "A".toList "B".toList "moon".toList infoFallbackB 2 rfl rfl
      (by decide) (by decide)).2 infoNoFallback rfl rfl (by decide)⟩

/-- A JSON value, restricted to the shapes the configuration document
uses (`serde_json_lenient` leniency concerns surface syntax only; the
value model is ordinary JSON). -/
inductive Json where
  | null
  | str (s : Str)
  | obj (fields : List (Str × Json))

/-- serde deserialization of a `String` field value. -/
def decodeString : Json → Except Str Str
  | .str s => .ok s
  | _ => .error "expected string".toList

/-- serde deserialization of an `Option<String>` field value. -/
def decodeOptString : Json → Except Str (Option Str)
  | .null => .ok none
  | .str s => .ok (some s)
  | _ => .error "expected string or null".toList

/-- serde deserialization of a `PathBuf` field value: a JSON string,
viewed as a path by splitting on `/`. -/
def decodePath : Json → Except Str Path
  | .str s => .ok (splitOnChar '/' s)
  | _ => .error "expected string".toList

/-- serde deserialization of an `Option<PathBuf>` field value. -/
def decodeOptPath : Json → Except Str (Option Path)
  | .null => .ok none
  | j => (decodePath j).map some

/-- serde deserialization of a `HashMap<String, V>` field value. -/
def decodeStrMap {α : Type} (dec : Json → Except Str α) :
    Json → Except Str (List (Str × α))
  | .obj fields => fields.mapM (fun p => (dec p.2).map (fun v => (p.1, v)))
  | _ => .error "expected map".toList

/-- `ToolchainInfo` deserialization as derived by serde: the `Option`
fields default to `None` when absent, and the `override` map carries
`#[serde(default)]` so it defaults to empty when absent. -/
def ToolchainInfo.fromJson (j : Json) : Except Str ToolchainInfo :=
  match j with
  | .obj fields => do
    let fallback ← match fields.lookup "fallback".toList with
      | none => .ok none
      | some v => decodeOptString v
    let root_path ← match fields.lookup "root_path".toList with
      | none => .ok none
      | some v => decodeOptPath v
    let override_ ← match fields.lookup "override".toList with
      | none => .ok []
      | some v => decodeStrMap decodePath v
    let core_path ← match fields.lookup "core_path".toList with
      | none => .ok none
      | some v => decodeOptPath v
    .ok ⟨fallback, root_path, override_, core_path⟩
  | _ => .error "expected object".toList

/-- `ChannelInfo` deserialization as derived by serde. -/
def ChannelInfo.fromJson (j : Json) : Except Str ChannelInfo :=
  match j with
  | .obj fields => do
    let url ← match fields.lookup "url".toList with
      | none => .ok none
      | some v => decodeOptString v
    .ok ⟨url⟩
  | _ => .error "expected object".toList

/-- `Config` deserialization as derived by serde (`read_config` parses
the file into exactly this): `toolchain` and `channels` carry
`#[serde(default)]` and default to empty maps when absent; `default` has
no default attribute, so a document without it is a "missing field"
error.  Unknown fields are ignored. -/
def Config.fromJson (j : Json) : Except Str Config :=
  match j with
  | .obj fields => do
    let toolchain ← match fields.lookup "toolchain".toList with
      | none => .ok []
      | some v => decodeStrMap ToolchainInfo.fromJson v
    let channels ← match fields.lookup "channels".toList with
      | none => .ok []
      | some v => decodeStrMap ChannelInfo.fromJson v
    let dflt ← match fields.lookup "default".toList with
      | none => .error "missing field default".toList
      | some v => decodeString v
    .ok ⟨toolchain, channels, dflt⟩
  | _ => .error "expected object".toList

/-- Claim C9 counterexample: the empty document `{}` — every field
absent — fails to load with a "missing field" error for `default`,
refuting the claim that all three fields default when absent. -/
theorem config_load_empty_fails :
    Config.fromJson (.obj []) = .error "missing field default".toList := rfl

/-- Claim C9 as amended: `toolchain` and `channels` default to empty when
absent and unknown fields are ignored, but `default` is required — a
document carrying only `default` (and arbitrary unknown fields) loads as
the configuration with empty maps, while its absence is a load error. -/
theorem config_lenient_loading (d : Str) :
    Config.fromJson (.obj [("default".toList, .str d)]) = .ok ⟨[], [], d⟩ ∧
    Config.fromJson (.obj [("unknown".toList, .null),
        ("default".toList, .str d)]) = .ok ⟨[], [], d⟩ ∧
    Config.fromJson (.obj []) = .error "missing field default".toList :=
  ⟨rfl, rfl, rfl⟩

/-- `ToolchainInfo::default()` (Rust `Default` derive). -/
def ToolchainInfo.defaultInfo : ToolchainInfo := ⟨none, none, [], none⟩

/-- `ChannelInfo::default()` (Rust `Default` derive). -/
def ChannelInfo.defaultInfo : ChannelInfo := ⟨none⟩

/-- `HashMap::insert` on the association-list model: the new binding
replaces any existing binding of the same key. -/
def insertMap {α : Type} (m : List (Str × α)) (k : Str) (v : α) :
    List (Str × α) :=
  (k, v) :: m.filter (fun p => ! (p.1 == k))

/-- `HashMap::remove` on the association-list model. -/
def removeMap {α : Type} (m : List (Str × α)) (k : Str) :
    List (Str × α) :=
  m.filter (fun p => ! (p.1 == k))

theorem lookup_insertMap_self {α : Type} (m : List (Str × α)) (k : Str)
    (v : α) : (insertMap m k v).lookup k = some v := by
  simp [insertMap, List.lookup]

theorem lookup_removeMap_self {α : Type} (m : List (Str × α)) (k : Str) :
    (removeMap m k).lookup k = none := by
  induction m with
  | nil => rfl
  | cons x xs ih =>
    obtain ⟨k1, v1⟩ := x
    unfold removeMap at ih ⊢
    rw [List.filter_cons]
    by_cases h : k1 = k
    · rw [if_neg (by simp [h])]
      exact ih
    · have hb : (k == k1) = false := by
        rw [beq_eq_false_iff_ne]
        exact fun he => h he.symm
      rw [if_pos (by simp [h])]
      simp only [List.lookup, hb]
      exact ih

/-- `src/self_ops/channel.rs` — `handle_remove`: parse the raw channel
argument, require the canonical channel string to be a key of
`config.channels`, delete the directory tree at the `toolchain_path` of
the RAW argument string (not the canonical one), then remove the
`channels` and `toolchain` entries keyed by the canonical string and
save the configuration.  The filesystem is the list of existing
directories; `remove_dir_all` removes a directory and everything under
it. -/
def remove_dir_all (fs : List Path) (p : Path) : List Path :=
  fs.filter (fun q => ! p.isPrefixOf q)

def handle_remove (defaultHost : Host) (home : Path) (cfg : Config)
    (fs : List Path) (raw : Str) : Except Str (Config × List Path) :=
  match Channel.fromStr defaultHost raw with
  | .error e => .error e
  | .ok ch =>
    let channel_name := ch.toStr
    match cfg.channels.lookup channel_name with
    | none => .error "Toolchain channel not found".toList
    | some _ =>
      let channel_path := toolchain_path home raw
      let fs2 :=
        if channel_path ∈ fs then remove_dir_all fs channel_path else fs
      let cfg2 : Config :=
        { toolchain := removeMap cfg.toolchain channel_name,
          channels := removeMap cfg.channels channel_name,
          default := cfg.default }
      .ok (cfg2, fs2)

theorem toolchain_path_isPrefixOf_iff (home : Path) (a b : Str) :
    (toolchain_path home a).isPrefixOf (toolchain_path home b) = true
      ↔ a = b := by
  constructor
  · intro h
    have hp := (List.isPrefixOf_iff_prefix).mp h
    have hlen : (toolchain_path home a).length
        = (toolchain_path home b).length := by
      simp [toolchain_path]
    have := List.IsPrefix.eq_of_length hp hlen
    simpa [toolchain_path] using this
  · rintro rfl
    exact (List.isPrefixOf_iff_prefix).mpr (List.prefix_refl _)

/-- Claim C10: when the raw remove argument differs from its canonical
channel string, `handle_remove` deletes the `channels` and `toolchain`
configuration entries keyed by the canonical string, but attempts the
filesystem deletion only at the path derived from the raw string — the
installed toolchain directory keyed by the canonical string survives on
disk. -/
theorem remove_leaves_canonical_dir (defaultHost : Host) (home : Path)
    (cfg : Config) (fs : List Path) (raw : Str) (ch : Channel)
    (ci : ChannelInfo)
    (hparse : Channel.fromStr defaultHost raw = .ok ch)
    (hchan : cfg.channels.lookup ch.toStr = some ci)
    (hne : raw ≠ ch.toStr)
    (hdisk : toolchain_path home ch.toStr ∈ fs) :
    ∃ cfg2 fs2,
      handle_remove defaultHost home cfg fs raw = .ok (cfg2, fs2) ∧
      cfg2.channels.lookup ch.toStr = none ∧
      cfg2.toolchain.lookup ch.toStr = none ∧
      toolchain_path home ch.toStr ∈ fs2 := by
  unfold handle_remove
  rw [hparse]
  simp only [hchan]
  refine ⟨_, _, rfl, lookup_removeMap_self _ _, lookup_removeMap_self _ _, ?_⟩
  by_cases hmem : toolchain_path home raw ∈ fs
  · simp only [if_pos hmem, remove_dir_all, List.mem_filter]
    refine ⟨hdisk, ?_⟩
    simp only [Bool.not_eq_eq_eq_not, Bool.not_true]
    rw [← Bool.not_eq_true, toolchain_path_isPrefixOf_iff]
    exact hne
  · simpa only [if_neg hmem] using hdisk

/-- Witness for claim C10: removing with the raw string `"latest"` while
the installed channel is keyed `"latest-linux-x86_64"` drops both config
entries but leaves the toolchain directory on disk. -/
theorem remove_leaves_canonical_dir_witness :
    ∃ cfg2 fs2,
      handle_remove hostLinux [] 
          { toolchain := [("latest-linux-x86_64".toList,
              ToolchainInfo.defaultInfo)],
            channels := [("latest-linux-x86_64".toList,
              ChannelInfo.defaultInfo)],
            default := [] }
          [toolchain_path [] "latest-linux-x86_64".toList] "latest".toList
        = .ok (cfg2, fs2) ∧
      cfg2.channels.lookup "latest-linux-x86_64".toList = none ∧
      cfg2.toolchain.lookup "latest-linux-x86_64".toList = none ∧
      toolchain_path [] "latest-linux-x86_64".toList ∈ fs2 := by
  exact remove_leaves_canonical_dir hostLinux []
    { toolchain := [("latest-linux-x86_64".toList, ToolchainInfo.defaultInfo)],
      channels := [("latest-linux-x86_64".toList, ChannelInfo.defaultInfo)],
      default := [] }
    [toolchain_path [] "latest-linux-x86_64".toList] "latest".toList
    ⟨.latest, hostLinux⟩ ChannelInfo.defaultInfo rfl rfl (by decide)
    (by rw [List.mem_singleton]; rfl)

/-- `src/self_ops/channel.rs` — `handle_add`, with the install step's
outcome abstracted as a parameter (it is network, filesystem and child
process I/O; claim C1 models it separately).  The second component is
the sequence of configurations passed to `save_config`, in order; the
last element is the finally persisted configuration. -/
def handle_add (defaultHost : Host) (old_config : Config) (raw : Str)
    (installResult : Except Str Unit) : Except Str Unit × List Config :=
  match Channel.fromStr defaultHost raw with
  | .error e => (.error e, [])
  | .ok channel =>
    let channel_name := channel.toStr
    match old_config.channels.lookup channel_name with
    | some _ => (.error "Toolchain channel already exists".toList, [])
    | none =>
      let new_config : Config :=
        { toolchain :=
            insertMap old_config.toolchain channel_name
              ToolchainInfo.defaultInfo,
          channels :=
            insertMap old_config.channels channel_name
              ChannelInfo.defaultInfo,
          default := old_config.default }
      match installResult with
      | .ok _ => (.ok (), [new_config])
      | .error e => (.error e, [new_config, old_config])

/-- Claim C8: adding a brand-new channel writes the updated
configuration (with the new `channels` and `toolchain` entries) before
the install runs — it is the first `save_config` call in both outcomes —
and if the install fails, the configuration is written back to the
pre-transaction snapshot and the install error is propagated, so the
finally persisted configuration equals the one before the add. -/
theorem add_failure_restores_config (defaultHost : Host)
    (old_config : Config) (raw : Str) (ch : Channel) (e : Str)
    (hparse : Channel.fromStr defaultHost raw = .ok ch)
    (hnew : old_config.channels.lookup ch.toStr = none) :
    ∃ new_config : Config,
      new_config.channels.lookup ch.toStr = some ChannelInfo.defaultInfo ∧
      new_config.toolchain.lookup ch.toStr
        = some ToolchainInfo.defaultInfo ∧
      (∀ installResult,
        ((handle_add defaultHost old_config raw installResult).2.head?
          = some new_config)) ∧
      handle_add defaultHost old_config raw (.error e)
        = (.error e, [new_config, old_config]) := by
  unfold handle_add
  rw [hparse]
  simp only [hnew]
  exact ⟨_, lookup_insertMap_self _ _ _, lookup_insertMap_self _ _ _,
    fun installResult => by cases installResult <;> rfl, rfl⟩

/-- Witness for claim C8: adding `"latest"` to the empty configuration
with a failing install. -/
theorem add_failure_restores_config_witness :
    ∃ new_config : Config,
      new_config.channels.lookup
          (Channel.toStr ⟨.latest, hostLinux⟩)
        = some ChannelInfo.defaultInfo ∧
      new_config.toolchain.lookup
          (Channel.toStr ⟨.latest, hostLinux⟩)
        = some ToolchainInfo.defaultInfo ∧
      (∀ installResult,
        ((handle_add hostLinux ⟨[], [], []⟩ "latest".toList
            installResult).2.head? = some new_config)) ∧
      handle_add hostLinux ⟨[], [], []⟩ "latest".toList
          (.error "download failed".toList)
        = (.error "download failed".toList,
           [new_config, ⟨[], [], []⟩]) :=
  add_failure_restores_config hostLinux ⟨[], [], []⟩ "latest".toList
    ⟨.latest, hostLinux⟩ "download failed".toList rfl rfl

/-- The three filesystem locations touched by the swap phase of
`full_install`: the install target directory, the backup directory next
to it, and the staging temporary directory.  A location holds `some tag`
when a (non-empty) directory with contents identified by `tag` exists
there. -/
structure SwapFs where
  target : Option Nat
  backup : Option Nat
  temp : Option Nat
  deriving DecidableEq, Repr

inductive SwapLoc where
  | target
  | backup
  | temp
  deriving DecidableEq, Repr

def SwapFs.get (fs : SwapFs) : SwapLoc → Option Nat
  | .target => fs.target
  | .backup => fs.backup
  | .temp => fs.temp

def SwapFs.set (fs : SwapFs) : SwapLoc → Option Nat → SwapFs
  | .target, v => { fs with target := v }
  | .backup, v => { fs with backup := v }
  | .temp, v => { fs with temp := v }

/-- `std::fs::rename(src, dst)` on directories, POSIX semantics: it
fails when the source is missing or when the destination exists as a
non-empty directory (every directory in this scenario is non-empty);
otherwise the directory moves atomically. -/
def SwapFs.rename (fs : SwapFs) (src dst : SwapLoc) :
    Except Unit SwapFs :=
  match fs.get src with
  | none => .error ()
  | some d =>
    match fs.get dst with
    | some _ => .error ()
    | none => .ok ((fs.set src none).set dst (some d))

/-- The scopeguard in `full_install`: on failure, rename the backup
directory back over the target, swallowing any error (`.ok()`).  The
"Delete the new directories" comment in the source has no code under
it — nothing removes the new target contents first. -/
def SwapFs.rollbackGuard (fs : SwapFs) : SwapFs :=
  match fs.rename .backup .target with
  | .ok fs2 => fs2
  | .error _ => fs

/-- `TempDir` drop: the staging directory, if still present, is removed
when `full_install` returns. -/
def SwapFs.dropTemp (fs : SwapFs) : SwapFs := fs.set .temp none

/-- The post-swap steps of `full_install` that can fail after the
staged directory has been renamed into place. -/
inductive InstallStep where
  | relink
  | versionCheck
  | bundleCore
  deriving DecidableEq, Repr

/-- The swap/relink/compile phase of `full_install`
(`src/self_ops/channel.rs:384-449`): remove any stale backup, rename the
existing target aside (error swallowed), rename the staged directory
into place, then run the relink, version-check and bundle-core steps —
`failAt` names the step whose I/O fails, if any.  On failure the
scopeguard rollback runs, then the `TempDir` cleanup; on success the
backup is removed. -/
def full_install_swap (fs0 : SwapFs) (failAt : Option InstallStep) :
    Except Str Unit × SwapFs :=
  let fs1 := fs0.set .backup none
  let fs2 :=
    match fs1.rename .target .backup with
    | .ok f => f
    | .error _ => fs1
  match fs2.rename .temp .target with
  | .error _ =>
    (.error "Failed to move new directories".toList,
     fs2.rollbackGuard.dropTemp)
  | .ok fs3 =>
    if failAt = some .relink then
      (.error "Failed to symlink some executables to bin directory".toList,
       fs3.rollbackGuard.dropTemp)
    else if failAt = some .versionCheck then
      (.error "Failed to run moon version".toList,
       fs3.rollbackGuard.dropTemp)
    else if failAt = some .bundleCore then
      (.error "Failed to compile core libraries".toList,
       fs3.rollbackGuard.dropTemp)
    else
      (.ok (), (fs3.set .backup none).dropTemp)

/-- Claim C1 (code bug): injecting a failure at the core-compile step —
after the old target (contents `0`) was renamed to the backup location
and the staged directory (contents `1`) renamed into place — does NOT
restore the pre-install state: the rollback's `rename(backup, target)`
fails because the target is occupied by the new non-empty directory (the
error is swallowed by `.ok()`, and the "Delete the new directories"
comment has no code), so the target keeps the newly installed contents
and the backup directory lingers; a subsequent resolver lookup observes
the new install, not the pre-install state. -/
theorem rollback_leaves_new_install :
    full_install_swap ⟨some 0, none, some 1⟩ (some .bundleCore)
      = (.error "Failed to compile core libraries".toList,
         ⟨some 1, some 0, none⟩) ∧
    (full_install_swap ⟨some 0, none, some 1⟩ (some .bundleCore)).2.target
      ≠ some 0 ∧
    (full_install_swap ⟨some 0, none, some 1⟩ (some .bundleCore)).2.backup
      ≠ none :=
  ⟨rfl, by decide, by decide⟩

end Lunik
